import Mathlib

/-!
Shallow embedding of the meeting-coordination core of the `dnd_meet` repository:
the meeting-suggestion lifecycle, participant/response handling, the query layer,
and the conflict records, as implemented in `src/server/storage.ts`,
`src/server/routes.ts`, the schema (`src/unnamed/part_007`) and the client-side
aggregation/overlap code (`MeetingResponseCard`, `CalendarGrid.hasConflicts`).

Timestamps are modelled as `Int` instants (the schema stores timezone-free
timestamps and all comparisons in the code are instant-based).  Database tables
are lists of rows; serial primary keys are modelled by `next…Id` counters.
-/

namespace DndMeet

/-- Row of `meeting_suggestions` (schema `src/unnamed/part_007:115-131`). -/
structure MeetingSuggestion where
  id : Nat
  suggestedById : String
  groupId : Option Nat
  title : String
  description : Option String
  proposedDateTime : Int
  location : Option String
  duration : Nat
  requiresAllAccept : Bool
  status : String
  isPrivate : Bool
  backgroundImageUrl : Option String
  participants : List String
  createdAt : Int
deriving Repr, DecidableEq

/-- Row of `meeting_participants` (schema lines 134-139). -/
structure MeetingParticipant where
  id : Nat
  meetingId : Nat
  userId : String
  addedAt : Int
deriving Repr, DecidableEq

/-- Row of `meeting_responses` (schema lines 142-151). -/
structure MeetingResponse where
  id : Nat
  meetingId : Nat
  userId : String
  responseType : String
  note : Option String
  counterDateTime : Option Int
  counterLocation : Option String
  createdAt : Int
deriving Repr, DecidableEq

/-- Row of `meeting_tags` (schema lines 310-316). -/
structure MeetingTag where
  id : Nat
  meetingId : Nat
  tagId : Nat
  addedByUserId : String
deriving Repr, DecidableEq

/-- Row of `chat_groups` (schema lines 70-81); only the fields the core reads. -/
structure ChatGroup where
  id : Nat
  name : String
  createdById : String
  isPrivate : Bool
  memberCount : Nat
deriving Repr, DecidableEq

/-- Row of `chat_group_members` (schema lines 84-90); `groupId` is nullable. -/
structure ChatGroupMember where
  id : Nat
  groupId : Option Nat
  userId : String
  role : String
deriving Repr, DecidableEq

/-- Row of `chat_messages` (schema lines 93-101); only the fields the core reads. -/
structure ChatMessage where
  id : Nat
  groupId : Option Nat
  senderId : String
  content : String
deriving Repr, DecidableEq

/-- Row of `events` (schema lines 181-194); only the fields the detector reads. -/
structure Event where
  id : Nat
  calendarId : Option Nat
  title : String
  startTime : Int
  endTime : Int
  isAllDay : Bool
deriving Repr, DecidableEq

/-- Row of `calendars` (schema lines 171-179); only the ownership chain fields. -/
structure Calendar where
  id : Nat
  connectionId : Option Nat
deriving Repr, DecidableEq

/-- Row of `calendar_connections` (schema lines 153-169); only the owner field. -/
structure CalendarConnection where
  id : Nat
  userId : String
deriving Repr, DecidableEq

/-- Row of `conflicts` (schema lines 196-203). -/
structure Conflict where
  id : Nat
  event1Id : Option Nat
  event2Id : Option Nat
  conflictType : String
  isResolved : Bool
deriving Repr, DecidableEq

/-- The persisted state the core's operations read and write.  Serial primary
keys are modelled by the `next…Id` counters (Postgres `serial`). -/
structure DB where
  chatGroups : List ChatGroup
  chatGroupMembers : List ChatGroupMember
  chatMessages : List ChatMessage
  meetingSuggestions : List MeetingSuggestion
  meetingParticipants : List MeetingParticipant
  meetingResponses : List MeetingResponse
  meetingTags : List MeetingTag
  calendarConnections : List CalendarConnection
  calendars : List Calendar
  events : List Event
  conflicts : List Conflict
  nextMeetingId : Nat
  nextParticipantId : Nat
  nextResponseId : Nat
  nextConflictId : Nat
deriving Repr, DecidableEq

/-! ## Query layer: `getAllMeetingsForUser` (`src/server/storage.ts:559-597`) -/

/-- JS `Map` semantics of
`Array.from(new Map(allMeetings.map(m => [m.id, m])).values())`: setting a key
that is already present overwrites the value in place, otherwise the entry is
appended; `values()` yields insertion order. -/
def mapInsertById (acc : List (Nat × MeetingSuggestion)) (m : MeetingSuggestion) :
    List (Nat × MeetingSuggestion) :=
  if acc.any (fun p => p.1 == m.id) then
    acc.map (fun p => if p.1 == m.id then (p.1, m) else p)
  else
    acc ++ [(m.id, m)]

/-- Deduplication by meeting id, as performed by
`new Map(allMeetings.map(m => [m.id, m])).values()` in `getAllMeetingsForUser`. -/
def dedupById (ms : List MeetingSuggestion) : List MeetingSuggestion :=
  (ms.foldl mapInsertById []).map Prod.snd

/-- Insertion step for the descending-by-`createdAt` sort performed by
`uniqueMeetings.sort((a, b) => new Date(b.createdAt).getTime() - new Date(a.createdAt).getTime())`. -/
def insertByCreatedAtDesc (m : MeetingSuggestion) :
    List MeetingSuggestion → List MeetingSuggestion
  | [] => [m]
  | x :: xs =>
    if x.createdAt ≤ m.createdAt then m :: x :: xs
    else x :: insertByCreatedAtDesc m xs

/-- Descending-by-`createdAt` sort (stable, like the JS `Array.sort`). -/
def sortByCreatedAtDesc : List MeetingSuggestion → List MeetingSuggestion
  | [] => []
  | x :: xs => insertByCreatedAtDesc x (sortByCreatedAtDesc xs)

/-- The `groupMeetings` query of `getAllMeetingsForUser`: meetings joined to a
chat group the user is a member of
(`innerJoin(chatGroups, …).innerJoin(chatGroupMembers, …).where(userId)`).
The SQL join is read as the membership filter it computes; the projection in
the source selects the meeting's own columns, so rows are meeting rows. -/
def groupMeetingsOf (db : DB) (userId : String) : List MeetingSuggestion :=
  db.meetingSuggestions.filter (fun m =>
    db.chatGroups.any (fun g =>
      m.groupId == some g.id &&
      db.chatGroupMembers.any (fun mem =>
        mem.groupId == some g.id && mem.userId == userId)))

/-- The `userMeetings` query of `getAllMeetingsForUser`: meetings created by the
user (`where(eq(meetingSuggestions.suggestedById, userId))`). -/
def userMeetingsOf (db : DB) (userId : String) : List MeetingSuggestion :=
  db.meetingSuggestions.filter (fun m => m.suggestedById == userId)

/-- `getAllMeetingsForUser` (`src/server/storage.ts:559-597`): union of
group-scoped and authored meetings, deduplicated by id, sorted descending by
creation time. -/
def getAllMeetingsForUser (db : DB) (userId : String) : List MeetingSuggestion :=
  sortByCreatedAtDesc (dedupById (groupMeetingsOf db userId ++ userMeetingsOf db userId))

/-! ## Meeting suggestion lifecycle (`storage.ts` and `routes.ts`) -/

/-- `getMeetingSuggestion` (`src/server/storage.ts:1229-1235`). -/
def getMeetingSuggestion (db : DB) (meetingId : Nat) : Option MeetingSuggestion :=
  db.meetingSuggestions.find? (fun m => m.id == meetingId)

/-- Insert payload for `createMeetingSuggestion`, as built by the POST
`/api/meetings` handler (`src/server/routes.ts:378-388`). -/
structure InsertMeetingSuggestion where
  title : String
  description : Option String
  proposedDateTime : Int
  location : Option String
  duration : Nat
  requiresAllAccept : Bool
  suggestedById : String
  groupId : Option Nat
  status : String
deriving Repr, DecidableEq

/-- `createMeetingSuggestion` (`src/server/storage.ts:599-610`): plain insert
returning the new row; `id` is the serial key, `createdAt` defaults to now. -/
def createMeetingSuggestion (db : DB) (now : Int) (s : InsertMeetingSuggestion) :
    DB × MeetingSuggestion :=
  let m : MeetingSuggestion :=
    { id := db.nextMeetingId
      suggestedById := s.suggestedById
      groupId := s.groupId
      title := s.title
      description := s.description
      proposedDateTime := s.proposedDateTime
      location := s.location
      duration := s.duration
      requiresAllAccept := s.requiresAllAccept
      status := s.status
      isPrivate := false
      backgroundImageUrl := none
      participants := []
      createdAt := now }
  ({ db with
      meetingSuggestions := db.meetingSuggestions ++ [m]
      nextMeetingId := db.nextMeetingId + 1 }, m)

/-- `addMeetingParticipant` (`src/server/storage.ts:647-650`): raw insert with
no uniqueness check (the `meeting_participants` table has only a serial key). -/
def addMeetingParticipant (db : DB) (now : Int) (meetingId : Nat) (userId : String) : DB :=
  { db with
      meetingParticipants := db.meetingParticipants ++
        [{ id := db.nextParticipantId, meetingId := meetingId, userId := userId, addedAt := now }]
      nextParticipantId := db.nextParticipantId + 1 }

/-- `joinMeeting` (`src/server/storage.ts:1308-1323`): select the existing
`(meetingId, userId)` rows; insert only when none exist. -/
def joinMeeting (db : DB) (now : Int) (meetingId : Nat) (userId : String) : DB :=
  let existing := db.meetingParticipants.filter (fun p =>
    p.meetingId == meetingId && p.userId == userId)
  if existing.length = 0 then addMeetingParticipant db now meetingId userId else db

/-- `leaveMeeting` (`src/server/storage.ts:1325-1332`). -/
def leaveMeeting (db : DB) (meetingId : Nat) (userId : String) : DB :=
  { db with
      meetingParticipants := db.meetingParticipants.filter (fun p =>
        !(p.meetingId == meetingId && p.userId == userId)) }

/-- First cascade step of `deleteMeetingSuggestion` (`storage.ts:1247`). -/
def delParticipants (db : DB) (meetingId : Nat) : DB :=
  { db with
      meetingParticipants := db.meetingParticipants.filter (fun p => !(p.meetingId == meetingId)) }

/-- Second cascade step of `deleteMeetingSuggestion` (`storage.ts:1249`). -/
def delResponses (db : DB) (meetingId : Nat) : DB :=
  { db with
      meetingResponses := db.meetingResponses.filter (fun r => !(r.meetingId == meetingId)) }

/-- Third cascade step of `deleteMeetingSuggestion` (`storage.ts:1251`). -/
def delTags (db : DB) (meetingId : Nat) : DB :=
  { db with
      meetingTags := db.meetingTags.filter (fun t => !(t.meetingId == meetingId)) }

/-- Final step of `deleteMeetingSuggestion` (`storage.ts:1253`). -/
def delMeetingRow (db : DB) (meetingId : Nat) : DB :=
  { db with
      meetingSuggestions := db.meetingSuggestions.filter (fun m => !(m.id == meetingId)) }

/-- `deleteMeetingSuggestion` (`src/server/storage.ts:1245-1254`): participants,
then responses, then meeting tags, then the suggestion row. -/
def deleteMeetingSuggestion (db : DB) (meetingId : Nat) : DB :=
  delMeetingRow (delTags (delResponses (delParticipants db meetingId) meetingId) meetingId) meetingId

/-- `deleteChatGroup` (`src/server/storage.ts:1255-1267`): members, messages,
each meeting of the group through `deleteMeetingSuggestion`, then the group. -/
def deleteChatGroup (db : DB) (groupId : Nat) : DB :=
  let db1 := { db with
    chatGroupMembers := db.chatGroupMembers.filter (fun m => !(m.groupId == some groupId)) }
  let db2 := { db1 with
    chatMessages := db1.chatMessages.filter (fun m => !(m.groupId == some groupId)) }
  let groupMeetings := db2.meetingSuggestions.filter (fun m => m.groupId == some groupId)
  let db3 := groupMeetings.foldl (fun s m => deleteMeetingSuggestion s m.id) db2
  { db3 with chatGroups := db3.chatGroups.filter (fun g => !(g.id == groupId)) }

/-- The mutable field set of PUT `/api/meetings/:id` (`routes.ts:460`). -/
structure UpdateMeetingFields where
  title : String
  description : Option String
  location : Option String
  proposedDateTime : Int
  duration : Nat
  isPrivate : Bool
deriving Repr, DecidableEq

/-- `updateMeetingSuggestion` (`src/server/storage.ts:1237-1244`) applied to the
field set the PUT handler passes. -/
def updateMeetingSuggestion (db : DB) (meetingId : Nat) (f : UpdateMeetingFields) : DB :=
  { db with
      meetingSuggestions := db.meetingSuggestions.map (fun m =>
        if m.id == meetingId then
          { m with
              title := f.title
              description := f.description
              location := f.location
              proposedDateTime := f.proposedDateTime
              duration := f.duration
              isPrivate := f.isPrivate }
        else m) }

/-- Outcome of the PUT/DELETE `/api/meetings/:id` handlers. -/
inductive RouteResult where
  | unauthorized
  | ok
deriving Repr, DecidableEq

/-- PUT `/api/meetings/:id` (`src/server/routes.ts:456-479`): 403 unless the
meeting exists and the caller is its author. -/
def putMeeting (db : DB) (meetingId : Nat) (userId : String) (f : UpdateMeetingFields) :
    DB × RouteResult :=
  match getMeetingSuggestion db meetingId with
  | none => (db, RouteResult.unauthorized)
  | some meeting =>
    if meeting.suggestedById == userId then
      (updateMeetingSuggestion db meetingId f, RouteResult.ok)
    else (db, RouteResult.unauthorized)

/-- DELETE `/api/meetings/:id` (`src/server/routes.ts:481-505`): 403 unless the
meeting exists and the caller is its author; the image release is best-effort
and has no effect on the persisted state. -/
def deleteMeetingRoute (db : DB) (meetingId : Nat) (userId : String) : DB × RouteResult :=
  match getMeetingSuggestion db meetingId with
  | none => (db, RouteResult.unauthorized)
  | some meeting =>
    if meeting.suggestedById == userId then
      (deleteMeetingSuggestion db meetingId, RouteResult.ok)
    else (db, RouteResult.unauthorized)

/-! ## POST `/api/meetings` (`src/server/routes.ts:365-424`) -/

/-- Request body of POST `/api/meetings` as destructured by the handler.
`image` records whether an image payload was supplied. -/
structure CreateMeetingRequest where
  title : String
  description : Option String
  proposedDateTime : Int
  location : Option String
  duration : Option Nat
  requiresAllAccept : Option Bool
  chatGroupId : Option Nat
  participants : List String
  image : Bool
deriving Repr, DecidableEq

/-- Outcome of POST `/api/meetings`: the 400 quota rejection, the 500 after a
failed image upload (with compensating delete), or the created row. -/
inductive CreateMeetingResult where
  | quotaExceeded
  | uploadFailed
  | created (meeting : MeetingSuggestion)
deriving Repr, DecidableEq

/-- JS `x || d` for an optional number: `undefined` and `0` both fall back. -/
def jsOrNat (x : Option Nat) (d : Nat) : Nat :=
  match x with
  | none => d
  | some v => if v = 0 then d else v

/-- `updateMeetingSuggestion(meeting.id, { backgroundImageUrl })` as the create
handler calls it after a successful upload (`routes.ts:394`). -/
def setMeetingBackground (db : DB) (meetingId : Nat) (url : String) : DB :=
  { db with
      meetingSuggestions := db.meetingSuggestions.map (fun m =>
        if m.id == meetingId then { m with backgroundImageUrl := some url } else m) }

/-- Tail of the create handler (`routes.ts:402-419`): insert the author as a
participant, then one raw insert per supplied participant id other than the
author, then re-read the meeting for the response. -/
def finishCreate (db : DB) (now : Int) (userId : String) (req : CreateMeetingRequest)
    (meeting : MeetingSuggestion) : DB × CreateMeetingResult :=
  let db1 := addMeetingParticipant db now meeting.id userId
  let db2 := req.participants.foldl
    (fun s pid => if pid == userId then s else addMeetingParticipant s now meeting.id pid) db1
  (db2, CreateMeetingResult.created ((getMeetingSuggestion db2 meeting.id).getD meeting))

/-- POST `/api/meetings` (`src/server/routes.ts:365-424`).  `uploadOutcome` is
the media store's answer when an image payload is supplied: `some url` on
success, `none` on failure (which triggers the compensating delete). -/
def postMeetings (db : DB) (now : Int) (userId : String) (req : CreateMeetingRequest)
    (uploadOutcome : Option String) : DB × CreateMeetingResult :=
  let existingMeetings := getAllMeetingsForUser db userId
  let userCreatedMeetings := existingMeetings.filter (fun m => m.suggestedById == userId)
  if 4 ≤ userCreatedMeetings.length then (db, CreateMeetingResult.quotaExceeded)
  else
    let created := createMeetingSuggestion db now
      { title := req.title
        description := req.description
        proposedDateTime := req.proposedDateTime
        location := req.location
        duration := jsOrNat req.duration 60
        requiresAllAccept := req.requiresAllAccept.getD false
        suggestedById := userId
        groupId := req.chatGroupId
        status := "accepted" }
    if req.image then
      match uploadOutcome with
      | some url => finishCreate (setMeetingBackground created.1 created.2.id url) now userId req created.2
      | none => (deleteMeetingSuggestion created.1 created.2.id, CreateMeetingResult.uploadFailed)
    else finishCreate created.1 now userId req created.2

/-! ## Conflict store operations (`src/server/storage.ts:853-910`) -/

/-- Insert payload for `createConflict` (`insertConflictSchema` omits only `id`
and `createdAt`). -/
structure InsertConflict where
  event1Id : Option Nat
  event2Id : Option Nat
  conflictType : String
  isResolved : Bool
deriving Repr, DecidableEq

/-- `createConflict` (`src/server/storage.ts:897-903`): plain insert with a
fresh serial id. -/
def createConflict (db : DB) (c : InsertConflict) : DB :=
  { db with
      conflicts := db.conflicts ++
        [{ id := db.nextConflictId
           event1Id := c.event1Id
           event2Id := c.event2Id
           conflictType := c.conflictType
           isResolved := c.isResolved }]
      nextConflictId := db.nextConflictId + 1 }

/-- `resolveConflict` (`src/server/storage.ts:905-910`): set `isResolved = true`
on the row with the given id. -/
def resolveConflict (db : DB) (conflictId : Nat) : DB :=
  { db with
      conflicts := db.conflicts.map (fun c =>
        if c.id == conflictId then { c with isResolved := true } else c) }

/-- `getUnresolvedConflicts` (`src/server/storage.ts:873-895`): conflicts scoped
through the `event1Id → calendar → connection → user` ownership chain, filtered
to `isResolved = false`. -/
def getUnresolvedConflicts (db : DB) (userId : String) : List Conflict :=
  db.conflicts.filter (fun c =>
    db.events.any (fun e =>
      c.event1Id == some e.id &&
      db.calendars.any (fun cal =>
        e.calendarId == some cal.id &&
        db.calendarConnections.any (fun conn =>
          cal.connectionId == some conn.id && conn.userId == userId))) &&
    c.isResolved == false)

/-- The writes the repository performs on the `conflicts` table: `createConflict`
inserts (the only insert, used when detection materializes a row) and
`resolveConflict` (the only update; there is no delete and no un-resolve). -/
inductive ConflictOp where
  | create (ins : InsertConflict)
  | resolve (conflictId : Nat)
deriving Repr, DecidableEq

/-- Apply one conflict-table write. -/
def applyConflictOp (db : DB) : ConflictOp → DB
  | ConflictOp.create ins => createConflict db ins
  | ConflictOp.resolve i => resolveConflict db i

/-- Apply a sequence of conflict-table writes. -/
def applyConflictOps (db : DB) (ops : List ConflictOp) : DB :=
  ops.foldl applyConflictOp db

/-! ## Client-side aggregation (`MeetingResponseCard`, loading-spinner.tsx:44-47) -/

/-- `responses.filter(r => r.responseType === "accepted").length`. -/
def acceptedCount (responses : List MeetingResponse) : Nat :=
  (responses.filter (fun r => r.responseType == "accepted")).length

/-- `responses.filter(r => r.responseType === "rejected").length`. -/
def rejectedCount (responses : List MeetingResponse) : Nat :=
  (responses.filter (fun r => r.responseType == "rejected")).length

/-- `responses.filter(r => r.responseType === "counter").length`. -/
def counterCount (responses : List MeetingResponse) : Nat :=
  (responses.filter (fun r => r.responseType == "counter")).length

/-! ## Conflict detection (`CalendarGrid.hasConflicts`, tag-selector.tsx:365-379) -/

/-- The overlap test of `hasConflicts` (tag-selector.tsx:373):
`event1.startTime < event2.endTime && event1.endTime > event2.startTime`,
strict on both sides. -/
def overlaps (event1 event2 : Event) : Bool :=
  decide (event1.startTime < event2.endTime) && decide (event1.endTime > event2.startTime)

/-- The nested `i < j` pair loop of `hasConflicts`. -/
def hasConflictsPairs : List Event → Bool
  | [] => false
  | e :: rest => rest.any (fun e2 => overlaps e e2) || hasConflictsPairs rest

/-- `hasConflicts` (tag-selector.tsx:365-379): false when fewer than two events,
otherwise true iff some `i < j` pair overlaps. -/
def hasConflicts (dayEvents : List Event) : Bool :=
  if dayEvents.length < 2 then false
  else hasConflictsPairs dayEvents

/-- Modelled from the spec: the server-side `Detect(userId)` pass of §4.3 is not
present under `src/` — the repository only carries the read routes
(`getConflicts`, `getUnresolvedConflicts`), `resolveConflict`, the
`createConflict` insert, and the client-side overlap test above.  Per the spec,
Detect computes all pairs `(e1, e2)` with `e1.id < e2.id` such that
`e1.startTime < e2.endTime AND e2.startTime < e1.endTime` and materializes, for
each qualifying pair, a Conflict row with `conflictType = "overlap"` and
`isResolved = false` (ids are assigned on insert; `0` stands for "fresh"). -/
def detect (evts : List Event) : List Conflict :=
  evts.flatMap (fun e1 =>
    evts.filterMap (fun e2 =>
      if e1.id < e2.id && overlaps e1 e2 then
        some { id := 0
               event1Id := some e1.id
               event2Id := some e2.id
               conflictType := "overlap"
               isResolved := false }
      else none))

/-! ## Spec-side aggregate (latest response per user), for comparison with the
implemented counters. -/

/-- Latest (max `createdAt`) response of one user in a response list; follows
the spec's words "the latest response per user is authoritative". -/
def latestResponseOf (responses : List MeetingResponse) (u : String) :
    Option MeetingResponse :=
  (responses.filter (fun r => r.userId == u)).foldl
    (fun acc r =>
      match acc with
      | none => some r
      | some b => if b.createdAt ≤ r.createdAt then some r else some b)
    none

/-- The distinct user ids appearing in a response list. -/
def distinctResponders (responses : List MeetingResponse) : List String :=
  (responses.map (fun r => r.userId)).dedup

/-- Spec-side `countAccepted`: the number of distinct users whose latest
response is `accepted` (written from the spec's words, to compare with the
implemented `acceptedCount`). -/
def latestCountAccepted (responses : List MeetingResponse) : Nat :=
  ((distinctResponders responses).filter (fun u =>
    match latestResponseOf responses u with
    | some r => r.responseType == "accepted"
    | none => false)).length

/-- Spec-side `countRejected` over latest responses per distinct user. -/
def latestCountRejected (responses : List MeetingResponse) : Nat :=
  ((distinctResponders responses).filter (fun u =>
    match latestResponseOf responses u with
    | some r => r.responseType == "rejected"
    | none => false)).length

/-! ## Lemmas about the JS-`Map` deduplication -/

theorem mapInsertById_fst_eq_id {acc : List (Nat × MeetingSuggestion)} {m : MeetingSuggestion}
    (h : ∀ p ∈ acc, p.1 = p.2.id) :
    ∀ p ∈ mapInsertById acc m, p.1 = p.2.id := by
  intro p hp
  unfold mapInsertById at hp
  split at hp
  · rcases List.mem_map.1 hp with ⟨q, hq, hfq⟩
    by_cases hqe : (q.1 == m.id) = true
    · rw [if_pos hqe] at hfq
      subst hfq
      exact beq_iff_eq.1 hqe
    · rw [if_neg hqe] at hfq
      subst hfq
      exact h q hq
  · rcases List.mem_append.1 hp with h' | h'
    · exact h p h'
    · simp only [List.mem_singleton] at h'
      subst h'
      rfl

theorem mapInsertById_keys_nodup {acc : List (Nat × MeetingSuggestion)} {m : MeetingSuggestion}
    (h : (acc.map Prod.fst).Nodup) :
    ((mapInsertById acc m).map Prod.fst).Nodup := by
  unfold mapInsertById
  split
  · have hkeys : (acc.map (fun p => if p.1 == m.id then (p.1, m) else p)).map Prod.fst
        = acc.map Prod.fst := by
      rw [List.map_map]
      apply List.map_congr_left
      intro p _
      by_cases hpe : (p.1 == m.id) = true
      · rw [Function.comp_apply, if_pos hpe]
      · rw [Function.comp_apply, if_neg hpe]
    rw [hkeys]
    exact h
  · rename_i hany
    rw [List.map_append]
    simp only [List.map_cons, List.map_nil]
    rw [List.nodup_append]
    refine ⟨h, List.nodup_singleton _, ?_⟩
    intro k hk hk'
    simp only [List.mem_singleton] at hk'
    subst hk'
    rcases List.mem_map.1 hk with ⟨p, hp, hpk⟩
    exact hany (List.any_eq_true.2 ⟨p, hp, by simp [hpk]⟩)

theorem mem_mapInsertById {acc : List (Nat × MeetingSuggestion)} {m : MeetingSuggestion}
    {p : Nat × MeetingSuggestion} (hp : p ∈ mapInsertById acc m) : p ∈ acc ∨ p.2 = m := by
  unfold mapInsertById at hp
  split at hp
  · rcases List.mem_map.1 hp with ⟨q, hq, hfq⟩
    by_cases hqe : (q.1 == m.id) = true
    · rw [if_pos hqe] at hfq
      right
      rw [← hfq]
    · rw [if_neg hqe] at hfq
      left
      rw [← hfq]
      exact hq
  · rcases List.mem_append.1 hp with h' | h'
    · exact Or.inl h'
    · simp only [List.mem_singleton] at h'
      subst h'
      exact Or.inr rfl

theorem mapInsertById_key_mem {acc : List (Nat × MeetingSuggestion)} {m : MeetingSuggestion} :
    ∃ p ∈ mapInsertById acc m, p.1 = m.id := by
  unfold mapInsertById
  split
  · rename_i hany
    rcases List.any_eq_true.1 hany with ⟨q, hq, hqe⟩
    exact ⟨(q.1, m), List.mem_map.2 ⟨q, hq, by rw [if_pos hqe]⟩, beq_iff_eq.1 hqe⟩
  · exact ⟨(m.id, m), List.mem_append.2 (Or.inr (List.mem_singleton.2 rfl)), rfl⟩

theorem mapInsertById_key_preserved {acc : List (Nat × MeetingSuggestion)}
    {m : MeetingSuggestion} {p : Nat × MeetingSuggestion} (hp : p ∈ acc) :
    ∃ q ∈ mapInsertById acc m, q.1 = p.1 := by
  unfold mapInsertById
  split
  · by_cases hpe : (p.1 == m.id) = true
    · exact ⟨(p.1, m), List.mem_map.2 ⟨p, hp, by rw [if_pos hpe]⟩, rfl⟩
    · exact ⟨p, List.mem_map.2 ⟨p, hp, by rw [if_neg hpe]⟩, rfl⟩
  · exact ⟨p, List.mem_append.2 (Or.inl hp), rfl⟩

theorem foldl_mapInsertById_invariant :
    ∀ (ms : List MeetingSuggestion) (acc : List (Nat × MeetingSuggestion)),
      (∀ p ∈ acc, p.1 = p.2.id) →
      (acc.map Prod.fst).Nodup →
      (∀ p ∈ ms.foldl mapInsertById acc, p.1 = p.2.id) ∧
      ((ms.foldl mapInsertById acc).map Prod.fst).Nodup ∧
      (∀ p ∈ ms.foldl mapInsertById acc, p.2 ∈ ms ∨ p ∈ acc) ∧
      (∀ m ∈ ms, ∃ p ∈ ms.foldl mapInsertById acc, p.1 = m.id) ∧
      (∀ p ∈ acc, ∃ q ∈ ms.foldl mapInsertById acc, q.1 = p.1) := by
  intro ms
  induction ms with
  | nil =>
    intro acc h1 h2
    refine ⟨h1, h2, ?_, ?_, ?_⟩
    · intro p hp
      exact Or.inr hp
    · intro m hm
      cases hm
    · intro p hp
      exact ⟨p, hp, rfl⟩
  | cons m ms ih =>
    intro acc h1 h2
    have ih' := ih (mapInsertById acc m) (mapInsertById_fst_eq_id h1) (mapInsertById_keys_nodup h2)
    refine ⟨ih'.1, ih'.2.1, ?_, ?_, ?_⟩
    · intro p hp
      rcases ih'.2.2.1 p hp with h | h
      · exact Or.inl (List.mem_cons_of_mem _ h)
      · rcases mem_mapInsertById h with h' | h'
        · exact Or.inr h'
        · exact Or.inl (List.mem_cons.2 (Or.inl (by rw [h'])))
    · intro m' hm'
      rcases List.mem_cons.1 hm' with h | h
      · subst h
        rcases @mapInsertById_key_mem acc m' with ⟨p, hp, hpk⟩
        rcases ih'.2.2.2.2 p hp with ⟨q, hq, hqk⟩
        exact ⟨q, hq, hqk.trans hpk⟩
      · exact ih'.2.2.2.1 m' h
    · intro p hp
      rcases @mapInsertById_key_preserved acc m p hp with ⟨q, hq, hqk⟩
      rcases ih'.2.2.2.2 q hq with ⟨q', hq', hqk'⟩
      exact ⟨q', hq', hqk'.trans hqk⟩

theorem dedupById_subset {ms : List MeetingSuggestion} {x : MeetingSuggestion}
    (hx : x ∈ dedupById ms) : x ∈ ms := by
  unfold dedupById at hx
  rcases List.mem_map.1 hx with ⟨p, hp, hpx⟩
  have inv := foldl_mapInsertById_invariant ms [] (by intro p hp; cases hp) (by simp)
  rcases inv.2.2.1 p hp with h | h
  · rw [← hpx]
    exact h
  · cases h

theorem dedupById_ids_nodup (ms : List MeetingSuggestion) :
    ((dedupById ms).map MeetingSuggestion.id).Nodup := by
  unfold dedupById
  have inv := foldl_mapInsertById_invariant ms [] (by intro p hp; cases hp) (by simp)
  rw [List.map_map]
  have hcongr : (ms.foldl mapInsertById []).map (MeetingSuggestion.id ∘ Prod.snd)
      = (ms.foldl mapInsertById []).map Prod.fst := by
    apply List.map_congr_left
    intro p hp
    exact (inv.1 p hp).symm
  rw [hcongr]
  exact inv.2.1

theorem mem_dedupById {ms : List MeetingSuggestion}
    (huniq : ∀ a ∈ ms, ∀ b ∈ ms, a.id = b.id → a = b) {x : MeetingSuggestion} :
    x ∈ dedupById ms ↔ x ∈ ms := by
  constructor
  · exact dedupById_subset
  · intro hx
    have inv := foldl_mapInsertById_invariant ms [] (by intro p hp; cases hp) (by simp)
    rcases inv.2.2.2.1 x hx with ⟨p, hp, hpk⟩
    have hp2 : p.2 ∈ ms := by
      rcases inv.2.2.1 p hp with h | h
      · exact h
      · cases h
    have hid : p.2.id = x.id := by
      rw [← inv.1 p hp]
      exact hpk
    have : p.2 = x := huniq p.2 hp2 x hx hid
    unfold dedupById
    exact List.mem_map.2 ⟨p, hp, this⟩

/-! ## Lemmas about the descending sort -/

theorem insertByCreatedAtDesc_perm (m : MeetingSuggestion) (l : List MeetingSuggestion) :
    (insertByCreatedAtDesc m l).Perm (m :: l) := by
  induction l with
  | nil => exact List.Perm.refl _
  | cons x xs ih =>
    unfold insertByCreatedAtDesc
    split
    · exact List.Perm.refl _
    · exact (ih.cons x).trans (List.Perm.swap m x xs)

theorem sortByCreatedAtDesc_perm (l : List MeetingSuggestion) :
    (sortByCreatedAtDesc l).Perm l := by
  induction l with
  | nil => exact List.Perm.refl _
  | cons x xs ih =>
    exact (insertByCreatedAtDesc_perm x (sortByCreatedAtDesc xs)).trans (ih.cons x)

theorem insertByCreatedAtDesc_pairwise {m : MeetingSuggestion} {l : List MeetingSuggestion}
    (h : l.Pairwise (fun a b => b.createdAt ≤ a.createdAt)) :
    (insertByCreatedAtDesc m l).Pairwise (fun a b => b.createdAt ≤ a.createdAt) := by
  induction l with
  | nil => simp [insertByCreatedAtDesc]
  | cons x xs ih =>
    rcases List.pairwise_cons.1 h with ⟨hx, hxs⟩
    unfold insertByCreatedAtDesc
    split
    · rename_i hle
      refine List.pairwise_cons.2 ⟨?_, h⟩
      intro b hb
      rcases List.mem_cons.1 hb with hb' | hb'
      · rw [hb']
        exact hle
      · exact le_trans (hx b hb') hle
    · rename_i hgt
      refine List.pairwise_cons.2 ⟨?_, ih hxs⟩
      intro b hb
      have hb2 : b ∈ m :: xs := (insertByCreatedAtDesc_perm m xs).mem_iff.1 hb
      rcases List.mem_cons.1 hb2 with hb' | hb'
      · rw [hb']
        exact le_of_not_le hgt
      · exact hx b hb'

theorem sortByCreatedAtDesc_pairwise (l : List MeetingSuggestion) :
    (sortByCreatedAtDesc l).Pairwise (fun a b => b.createdAt ≤ a.createdAt) := by
  induction l with
  | nil => simp [sortByCreatedAtDesc]
  | cons x xs ih => exact insertByCreatedAtDesc_pairwise ih

/-! ## Lemmas about `getAllMeetingsForUser` -/

/-- The group-visibility condition computed by the SQL joins of
`getAllMeetingsForUser`: the meeting belongs to a chat group the user is a
member of. -/
def memberOfMeetingGroup (db : DB) (userId : String) (m : MeetingSuggestion) : Prop :=
  ∃ g ∈ db.chatGroups, m.groupId = some g.id ∧
    ∃ mem ∈ db.chatGroupMembers, mem.groupId = some g.id ∧ mem.userId = userId

/-- `authoredCount db u` is the number of meeting-suggestion rows whose
`suggestedById` is `u` — all of the author's suggestions, with no status
filter. -/
def authoredCount (db : DB) (u : String) : Nat :=
  (db.meetingSuggestions.filter (fun m => m.suggestedById == u)).length

theorem mem_groupMeetingsOf {db : DB} {u : String} {m : MeetingSuggestion} :
    m ∈ groupMeetingsOf db u ↔ m ∈ db.meetingSuggestions ∧ memberOfMeetingGroup db u m := by
  simp only [groupMeetingsOf, memberOfMeetingGroup, List.mem_filter, List.any_eq_true,
    Bool.and_eq_true, beq_iff_eq]

theorem mem_userMeetingsOf {db : DB} {u : String} {m : MeetingSuggestion} :
    m ∈ userMeetingsOf db u ↔ m ∈ db.meetingSuggestions ∧ m.suggestedById = u := by
  simp only [userMeetingsOf, List.mem_filter, beq_iff_eq]

theorem union_id_uniq {db : DB} {u : String}
    (hids : (db.meetingSuggestions.map MeetingSuggestion.id).Nodup) :
    ∀ a ∈ groupMeetingsOf db u ++ userMeetingsOf db u,
      ∀ b ∈ groupMeetingsOf db u ++ userMeetingsOf db u, a.id = b.id → a = b := by
  intro a ha b hb hab
  have hmem : ∀ x ∈ groupMeetingsOf db u ++ userMeetingsOf db u,
      x ∈ db.meetingSuggestions := by
    intro x hx
    rcases List.mem_append.1 hx with h | h
    · exact List.mem_of_mem_filter h
    · exact List.mem_of_mem_filter h
  exact List.inj_on_of_nodup_map hids (hmem a ha) (hmem b hb) hab

theorem mem_getAllMeetingsForUser {db : DB} {u : String}
    (hids : (db.meetingSuggestions.map MeetingSuggestion.id).Nodup)
    {m : MeetingSuggestion} :
    m ∈ getAllMeetingsForUser db u ↔
      m ∈ db.meetingSuggestions ∧ (m.suggestedById = u ∨ memberOfMeetingGroup db u m) := by
  unfold getAllMeetingsForUser
  rw [(sortByCreatedAtDesc_perm _).mem_iff, mem_dedupById (union_id_uniq hids),
    List.mem_append, mem_groupMeetingsOf, mem_userMeetingsOf]
  constructor
  · rintro (⟨h1, h2⟩ | ⟨h1, h2⟩)
    · exact ⟨h1, Or.inr h2⟩
    · exact ⟨h1, Or.inl h2⟩
  · rintro ⟨h1, h2 | h2⟩
    · exact Or.inr ⟨h1, h2⟩
    · exact Or.inl ⟨h1, h2⟩

theorem getAllMeetingsForUser_ids_nodup (db : DB) (u : String) :
    ((getAllMeetingsForUser db u).map MeetingSuggestion.id).Nodup := by
  unfold getAllMeetingsForUser
  have hperm := (sortByCreatedAtDesc_perm
    (dedupById (groupMeetingsOf db u ++ userMeetingsOf db u))).map MeetingSuggestion.id
  exact hperm.nodup_iff.2 (dedupById_ids_nodup _)

theorem userCreated_length {db : DB} {u : String}
    (hids : (db.meetingSuggestions.map MeetingSuggestion.id).Nodup) :
    ((getAllMeetingsForUser db u).filter (fun m => m.suggestedById == u)).length
      = authoredCount db u := by
  unfold getAllMeetingsForUser authoredCount
  rw [((sortByCreatedAtDesc_perm _).filter _).length_eq]
  apply List.Perm.length_eq
  have hdb : db.meetingSuggestions.Nodup := hids.of_map _
  apply (List.perm_ext_iff_of_nodup ?_ ?_).2
  · intro a
    rw [List.mem_filter, List.mem_filter, mem_dedupById (union_id_uniq hids), List.mem_append]
    constructor
    · rintro ⟨h1 | h1, h2⟩
      · exact ⟨List.mem_of_mem_filter h1, h2⟩
      · exact ⟨List.mem_of_mem_filter h1, h2⟩
    · rintro ⟨h1, h2⟩
      exact ⟨Or.inr (List.mem_filter.2 ⟨h1, h2⟩), h2⟩
  · exact ((dedupById_ids_nodup _).of_map _).filter _
  · exact hdb.filter _

/-! ## Concrete states used by witnesses -/

/-- An empty database with fresh serial counters. -/
def emptyDB : DB :=
  { chatGroups := []
    chatGroupMembers := []
    chatMessages := []
    meetingSuggestions := []
    meetingParticipants := []
    meetingResponses := []
    meetingTags := []
    calendarConnections := []
    calendars := []
    events := []
    conflicts := []
    nextMeetingId := 1
    nextParticipantId := 1
    nextResponseId := 1
    nextConflictId := 1 }

/-- A request mirroring the spec's scenario: author A, participants B and C. -/
def wReq : CreateMeetingRequest :=
  { title := "Standup"
    description := none
    proposedDateTime := 0
    location := none
    duration := some 30
    requiresAllAccept := none
    chatGroupId := none
    participants := ["B", "C"]
    image := false }

/-- Chat group used by the query-layer witness. -/
def wGroup : ChatGroup :=
  { id := 1, name := "g", createdById := "A", isPrivate := false, memberCount := 2 }

/-- Membership row: user B belongs to group 1. -/
def wMember : ChatGroupMember :=
  { id := 1, groupId := some 1, userId := "B", role := "member" }

/-- A group-scoped meeting authored by A in group 1. -/
def wM1 : MeetingSuggestion :=
  { id := 1, suggestedById := "A", groupId := some 1, title := "m1", description := none
    proposedDateTime := 0, location := none, duration := 60, requiresAllAccept := false
    status := "accepted", isPrivate := false, backgroundImageUrl := none
    participants := [], createdAt := 5 }

/-- An individually-scoped meeting authored by B. -/
def wM2 : MeetingSuggestion :=
  { id := 2, suggestedById := "B", groupId := none, title := "m2", description := none
    proposedDateTime := 0, location := none, duration := 60, requiresAllAccept := false
    status := "accepted", isPrivate := false, backgroundImageUrl := none
    participants := [], createdAt := 3 }

/-- Database with one group, one membership row and two meetings. -/
def wDB : DB :=
  { emptyDB with
      chatGroups := [wGroup]
      chatGroupMembers := [wMember]
      meetingSuggestions := [wM1, wM2]
      nextMeetingId := 3 }

/-! ## C2: creation quota -/

/-- C2: `POST /api/meetings` succeeds only when, immediately prior to the call,
the number of meeting suggestions whose author is the caller — counted over all
of the author's suggestions, with no status filter — is strictly less than 4;
with 4 or more, it fails with the quota error and the state is unchanged, so no
new suggestion is persisted. -/
theorem create_quota_spec (db : DB) (now : Int) (u : String) (req : CreateMeetingRequest)
    (upl : Option String)
    (hids : (db.meetingSuggestions.map MeetingSuggestion.id).Nodup) :
    ((∃ m, (postMeetings db now u req upl).2 = CreateMeetingResult.created m) →
      authoredCount db u < 4) ∧
    (4 ≤ authoredCount db u →
      postMeetings db now u req upl = (db, CreateMeetingResult.quotaExceeded)) := by
  have hc := @userCreated_length db u hids
  have hbranch : 4 ≤ authoredCount db u →
      postMeetings db now u req upl = (db, CreateMeetingResult.quotaExceeded) := by
    intro hge
    unfold postMeetings
    rw [if_pos (by rw [hc]; exact hge)]
  refine ⟨?_, hbranch⟩
  rintro ⟨m, hm⟩
  by_contra hlt
  push_neg at hlt
  rw [hbranch hlt] at hm
  cases hm

/-- Witness for C2 at a concrete state: the empty database and the spec's
scenario request. -/
theorem create_quota_spec_witness :
    (emptyDB.meetingSuggestions.map MeetingSuggestion.id).Nodup ∧
    (((∃ m, (postMeetings emptyDB 0 "A" wReq none).2 = CreateMeetingResult.created m) →
        authoredCount emptyDB "A" < 4) ∧
      (4 ≤ authoredCount emptyDB "A" →
        postMeetings emptyDB 0 "A" wReq none = (emptyDB, CreateMeetingResult.quotaExceeded))) :=
  ⟨by decide, create_quota_spec emptyDB 0 "A" wReq none (by decide)⟩

/-! ## C9: the query layer -/

/-- C9: `getAllMeetingsForUser` returns exactly the union of the user's
group-visible meetings and the meetings the user authored, deduplicated by
meeting id (a user who is both the author and a group member sees the meeting
exactly once), sorted descending by creation time. -/
theorem listForUser_spec (db : DB) (u : String)
    (hids : (db.meetingSuggestions.map MeetingSuggestion.id).Nodup) :
    (∀ m, m ∈ getAllMeetingsForUser db u ↔
        m ∈ db.meetingSuggestions ∧ (m.suggestedById = u ∨ memberOfMeetingGroup db u m)) ∧
    ((getAllMeetingsForUser db u).map MeetingSuggestion.id).Nodup ∧
    (getAllMeetingsForUser db u).Pairwise (fun a b => b.createdAt ≤ a.createdAt) :=
  ⟨fun _ => mem_getAllMeetingsForUser hids, getAllMeetingsForUser_ids_nodup db u,
    sortByCreatedAtDesc_pairwise _⟩

/-- Witness for C9 at a concrete state: user B is a member of group 1 (which
holds A's meeting) and the author of their own meeting. -/
theorem listForUser_spec_witness :
    (wDB.meetingSuggestions.map MeetingSuggestion.id).Nodup ∧
    ((∀ m, m ∈ getAllMeetingsForUser wDB "B" ↔
        m ∈ wDB.meetingSuggestions ∧
          (m.suggestedById = "B" ∨ memberOfMeetingGroup wDB "B" m)) ∧
      ((getAllMeetingsForUser wDB "B").map MeetingSuggestion.id).Nodup ∧
      (getAllMeetingsForUser wDB "B").Pairwise (fun a b => b.createdAt ≤ a.createdAt)) :=
  ⟨by decide, listForUser_spec wDB "B" (by decide)⟩

/-! ## C4: resolve is one-directional -/

theorem applyConflictOp_preserves {cid : Nat} {db : DB} (op : ConflictOp)
    (h1 : cid < db.nextConflictId)
    (h2 : ∀ c ∈ db.conflicts, c.id = cid → c.isResolved = true) :
    cid < (applyConflictOp db op).nextConflictId ∧
      ∀ c ∈ (applyConflictOp db op).conflicts, c.id = cid → c.isResolved = true := by
  cases op with
  | create ins =>
    refine ⟨Nat.lt_succ_of_lt h1, ?_⟩
    intro c hc hcid
    rcases List.mem_append.1 hc with h | h
    · exact h2 c h hcid
    · simp only [List.mem_singleton] at h
      subst h
      simp only at hcid
      omega
  | resolve i =>
    refine ⟨h1, ?_⟩
    intro c hc hcid
    rcases List.mem_map.1 hc with ⟨c0, hc0, hfc⟩
    by_cases he : (c0.id == i) = true
    · rw [if_pos he] at hfc
      subst hfc
      rfl
    · rw [if_neg he] at hfc
      subst hfc
      exact h2 c0 hc0 hcid

theorem applyConflictOps_preserves {cid : Nat} (ops : List ConflictOp) :
    ∀ db : DB, cid < db.nextConflictId →
      (∀ c ∈ db.conflicts, c.id = cid → c.isResolved = true) →
      cid < (applyConflictOps db ops).nextConflictId ∧
        ∀ c ∈ (applyConflictOps db ops).conflicts, c.id = cid → c.isResolved = true := by
  induction ops with
  | nil => exact fun db h1 h2 => ⟨h1, h2⟩
  | cons op ops ih =>
    intro db h1 h2
    have hstep := applyConflictOp_preserves op h1 h2
    exact ih (applyConflictOp db op) hstep.1 hstep.2

/-- C4: once `resolveConflict` has run on a conflict id present in the store,
every sequence of further conflict-table writes (the repository only has
`createConflict` inserts and `resolveConflict` updates — there is no
"unresolve") leaves that row resolved, so `getUnresolvedConflicts` never again
returns that conflict id, for any user. -/
theorem resolve_monotone (db : DB) (cid : Nat) (ops : List ConflictOp) (u : String)
    (hbound : ∀ c ∈ db.conflicts, c.id < db.nextConflictId)
    (hmem : ∃ c ∈ db.conflicts, c.id = cid) :
    (∀ c ∈ (applyConflictOps (resolveConflict db cid) ops).conflicts,
        c.id = cid → c.isResolved = true) ∧
    (∀ c ∈ getUnresolvedConflicts (applyConflictOps (resolveConflict db cid) ops) u,
        c.id ≠ cid) := by
  obtain ⟨c0, hc0, hcid0⟩ := hmem
  have h1 : cid < (resolveConflict db cid).nextConflictId := by
    have := hbound c0 hc0
    rw [hcid0] at this
    exact this
  have h2 : ∀ c ∈ (resolveConflict db cid).conflicts, c.id = cid → c.isResolved = true := by
    intro c hc hcid
    rcases List.mem_map.1 hc with ⟨b, hb, hfb⟩
    by_cases he : (b.id == cid) = true
    · rw [if_pos he] at hfb
      subst hfb
      rfl
    · rw [if_neg he] at hfb
      subst hfb
      exact absurd hcid (by simpa using he)
  have main := applyConflictOps_preserves ops _ h1 h2
  refine ⟨main.2, ?_⟩
  intro c hc hcid
  have hfil := List.mem_filter.1 hc
  have hres : c.isResolved = false := by
    have h := hfil.2
    rw [Bool.and_eq_true] at h
    simpa using h.2
  have htrue := main.2 c hfil.1 hcid
  rw [htrue] at hres
  cases hres

/-- A conflict row used by the C4 witness. -/
def wConflict : Conflict :=
  { id := 5, event1Id := some 1, event2Id := some 2, conflictType := "overlap", isResolved := false }

/-- Conflict store used by the C4 witness. -/
def wConflictDB : DB := { emptyDB with conflicts := [wConflict], nextConflictId := 6 }

/-- Conflict-table writes replayed by the C4 witness: a fresh detection insert
and an unrelated resolve. -/
def wOps : List ConflictOp :=
  [ConflictOp.create { event1Id := some 3, event2Id := some 4, conflictType := "overlap", isResolved := false },
   ConflictOp.resolve 3]

/-- Witness for C4 at a concrete state: conflict 5 stays resolved under further
writes. -/
theorem resolve_monotone_witness :
    (∀ c ∈ wConflictDB.conflicts, c.id < wConflictDB.nextConflictId) ∧
    (∃ c ∈ wConflictDB.conflicts, c.id = 5) ∧
    ((∀ c ∈ (applyConflictOps (resolveConflict wConflictDB 5) wOps).conflicts,
        c.id = 5 → c.isResolved = true) ∧
      (∀ c ∈ getUnresolvedConflicts (applyConflictOps (resolveConflict wConflictDB 5) wOps) "A",
        c.id ≠ 5)) :=
  ⟨by decide, by decide, resolve_monotone wConflictDB 5 wOps "A" (by decide) (by decide)⟩

/-! ## C7: cascade delete by the author -/

/-- C7: the author's DELETE removes all participant, response and tag rows
referencing the meeting, then the suggestion itself — literally in that
child-before-parent order — and afterwards no participant, response, tag or
suggestion row references the meeting id. -/
theorem delete_cascade (db : DB) (mid : Nat) (u : String) (m : MeetingSuggestion)
    (hfind : getMeetingSuggestion db mid = some m) (hauth : m.suggestedById = u) :
    deleteMeetingRoute db mid u = (deleteMeetingSuggestion db mid, RouteResult.ok) ∧
    deleteMeetingSuggestion db mid =
      delMeetingRow (delTags (delResponses (delParticipants db mid) mid) mid) mid ∧
    (∀ p ∈ (deleteMeetingSuggestion db mid).meetingParticipants, p.meetingId ≠ mid) ∧
    (∀ r ∈ (deleteMeetingSuggestion db mid).meetingResponses, r.meetingId ≠ mid) ∧
    (∀ t ∈ (deleteMeetingSuggestion db mid).meetingTags, t.meetingId ≠ mid) ∧
    (∀ s ∈ (deleteMeetingSuggestion db mid).meetingSuggestions, s.id ≠ mid) := by
  refine ⟨?_, rfl, ?_, ?_, ?_, ?_⟩
  · unfold deleteMeetingRoute
    rw [hfind]
    simp [hauth]
  · intro p hp
    have := (List.mem_filter.1 hp).2
    simpa using this
  · intro r hr
    have := (List.mem_filter.1 hr).2
    simpa using this
  · intro t ht
    have := (List.mem_filter.1 ht).2
    simpa using this
  · intro s hs
    have := (List.mem_filter.1 hs).2
    simpa using this

/-- Meeting row used by the C7/C8 witnesses. -/
def wM3 : MeetingSuggestion :=
  { id := 7, suggestedById := "A", groupId := none, title := "m3", description := none
    proposedDateTime := 0, location := none, duration := 60, requiresAllAccept := false
    status := "accepted", isPrivate := false, backgroundImageUrl := none
    participants := [], createdAt := 0 }

/-- Database with meeting 7 and dependent participant, response and tag rows. -/
def wDelDB : DB :=
  { emptyDB with
      meetingSuggestions := [wM3]
      meetingParticipants := [{ id := 1, meetingId := 7, userId := "A", addedAt := 0 }]
      meetingResponses := [{ id := 1, meetingId := 7, userId := "B", responseType := "accepted",
                             note := none, counterDateTime := none, counterLocation := none,
                             createdAt := 0 }]
      meetingTags := [{ id := 1, meetingId := 7, tagId := 1, addedByUserId := "A" }]
      nextMeetingId := 8
      nextParticipantId := 2
      nextResponseId := 2 }

/-- Witness for C7 at a concrete state: author A deletes meeting 7. -/
theorem delete_cascade_witness :
    getMeetingSuggestion wDelDB 7 = some wM3 ∧ wM3.suggestedById = "A" ∧
    (deleteMeetingRoute wDelDB 7 "A" = (deleteMeetingSuggestion wDelDB 7, RouteResult.ok) ∧
      deleteMeetingSuggestion wDelDB 7 =
        delMeetingRow (delTags (delResponses (delParticipants wDelDB 7) 7) 7) 7 ∧
      (∀ p ∈ (deleteMeetingSuggestion wDelDB 7).meetingParticipants, p.meetingId ≠ 7) ∧
      (∀ r ∈ (deleteMeetingSuggestion wDelDB 7).meetingResponses, r.meetingId ≠ 7) ∧
      (∀ t ∈ (deleteMeetingSuggestion wDelDB 7).meetingTags, t.meetingId ≠ 7) ∧
      (∀ s ∈ (deleteMeetingSuggestion wDelDB 7).meetingSuggestions, s.id ≠ 7)) :=
  ⟨by decide, by decide, delete_cascade wDelDB 7 "A" wM3 (by decide) (by decide)⟩

/-! ## C8: authorization guard on update and delete -/

/-- C8: when the caller is not the meeting's author, both the PUT and the
DELETE handlers answer Unauthorized and leave the entire persisted state — the
suggestion and all dependent rows — unchanged. -/
theorem unauthorized_guard (db : DB) (mid : Nat) (u : String) (m : MeetingSuggestion)
    (f : UpdateMeetingFields)
    (hfind : getMeetingSuggestion db mid = some m) (hne : m.suggestedById ≠ u) :
    putMeeting db mid u f = (db, RouteResult.unauthorized) ∧
    deleteMeetingRoute db mid u = (db, RouteResult.unauthorized) := by
  constructor
  · unfold putMeeting
    rw [hfind]
    simp [hne]
  · unfold deleteMeetingRoute
    rw [hfind]
    simp [hne]

/-- Update payload used by the C8 witness. -/
def wFields : UpdateMeetingFields :=
  { title := "x", description := none, location := none, proposedDateTime := 1,
    duration := 30, isPrivate := true }

/-- Witness for C8 at a concrete state: caller B is not the author of
meeting 7. -/
theorem unauthorized_guard_witness :
    getMeetingSuggestion wDelDB 7 = some wM3 ∧ wM3.suggestedById ≠ "B" ∧
    (putMeeting wDelDB 7 "B" wFields = (wDelDB, RouteResult.unauthorized) ∧
      deleteMeetingRoute wDelDB 7 "B" = (wDelDB, RouteResult.unauthorized)) :=
  ⟨by decide, by decide, unauthorized_guard wDelDB 7 "B" wM3 wFields (by decide) (by decide)⟩

/-! ## C10: group deletion cascades into meeting records -/

/-- "No participant, response, tag or suggestion row references meeting `k`". -/
def clearedOf (s : DB) (k : Nat) : Prop :=
  (∀ p ∈ s.meetingParticipants, p.meetingId ≠ k) ∧
  (∀ r ∈ s.meetingResponses, r.meetingId ≠ k) ∧
  (∀ t ∈ s.meetingTags, t.meetingId ≠ k) ∧
  (∀ m ∈ s.meetingSuggestions, m.id ≠ k)

theorem clearedOf_delete_self (s : DB) (mid : Nat) :
    clearedOf (deleteMeetingSuggestion s mid) mid := by
  refine ⟨?_, ?_, ?_, ?_⟩
  · intro x hx
    have := (List.mem_filter.1 hx).2
    simpa using this
  · intro x hx
    have := (List.mem_filter.1 hx).2
    simpa using this
  · intro x hx
    have := (List.mem_filter.1 hx).2
    simpa using this
  · intro x hx
    have := (List.mem_filter.1 hx).2
    simpa using this

theorem clearedOf_delete_mono (s : DB) (mid k : Nat) (h : clearedOf s k) :
    clearedOf (deleteMeetingSuggestion s mid) k := by
  refine ⟨?_, ?_, ?_, ?_⟩
  · intro x hx
    exact h.1 x (List.mem_of_mem_filter hx)
  · intro x hx
    exact h.2.1 x (List.mem_of_mem_filter hx)
  · intro x hx
    exact h.2.2.1 x (List.mem_of_mem_filter hx)
  · intro x hx
    exact h.2.2.2 x (List.mem_of_mem_filter hx)

theorem clearedOf_foldl (l : List MeetingSuggestion) :
    ∀ (s : DB) (k : Nat), clearedOf s k →
      clearedOf (l.foldl (fun s m => deleteMeetingSuggestion s m.id) s) k := by
  induction l with
  | nil => exact fun s k h => h
  | cons m l ih =>
    intro s k h
    exact ih _ _ (clearedOf_delete_mono _ _ _ h)

theorem clearedOf_foldl_clears (l : List MeetingSuggestion) :
    ∀ (s : DB) (k : Nat), (∃ m ∈ l, m.id = k) →
      clearedOf (l.foldl (fun s m => deleteMeetingSuggestion s m.id) s) k := by
  induction l with
  | nil =>
    rintro s k ⟨m, hm, _⟩
    cases hm
  | cons m l ih =>
    rintro s k ⟨m', hm', hk⟩
    rcases List.mem_cons.1 hm' with h | h
    · subst h
      subst hk
      exact clearedOf_foldl l _ _ (clearedOf_delete_self s m'.id)
    · exact ih _ _ ⟨m', h, hk⟩

theorem foldl_delete_chatGroupMembers (l : List MeetingSuggestion) :
    ∀ s : DB,
      (l.foldl (fun s m => deleteMeetingSuggestion s m.id) s).chatGroupMembers
        = s.chatGroupMembers := by
  induction l with
  | nil => exact fun _ => rfl
  | cons m l ih => exact fun s => (ih _).trans rfl

theorem foldl_delete_chatMessages (l : List MeetingSuggestion) :
    ∀ s : DB,
      (l.foldl (fun s m => deleteMeetingSuggestion s m.id) s).chatMessages
        = s.chatMessages := by
  induction l with
  | nil => exact fun _ => rfl
  | cons m l ih => exact fun s => (ih _).trans rfl

theorem foldl_delete_chatGroups (l : List MeetingSuggestion) :
    ∀ s : DB,
      (l.foldl (fun s m => deleteMeetingSuggestion s m.id) s).chatGroups
        = s.chatGroups := by
  induction l with
  | nil => exact fun _ => rfl
  | cons m l ih => exact fun s => (ih _).trans rfl

/-- C10: `deleteChatGroup` removes the group's membership and message rows,
deletes every meeting suggestion whose `groupId` is the group together with
each such meeting's participant, response and tag rows (via
`deleteMeetingSuggestion`), and removes the group row itself. -/
theorem deleteChatGroup_cascade (db : DB) (gid : Nat) :
    (∀ mem ∈ (deleteChatGroup db gid).chatGroupMembers, mem.groupId ≠ some gid) ∧
    (∀ msg ∈ (deleteChatGroup db gid).chatMessages, msg.groupId ≠ some gid) ∧
    (∀ g ∈ (deleteChatGroup db gid).chatGroups, g.id ≠ gid) ∧
    (∀ m ∈ db.meetingSuggestions, m.groupId = some gid →
      clearedOf (deleteChatGroup db gid) m.id) := by
  unfold deleteChatGroup
  refine ⟨?_, ?_, ?_, ?_⟩
  · intro mem hmem
    rw [foldl_delete_chatGroupMembers] at hmem
    have := (List.mem_filter.1 hmem).2
    simpa using this
  · intro msg hmsg
    rw [foldl_delete_chatMessages] at hmsg
    have := (List.mem_filter.1 hmsg).2
    simpa using this
  · intro g hg
    have := (List.mem_filter.1 hg).2
    simpa using this
  · intro m hm hgm
    have hmem : m ∈ db.meetingSuggestions.filter (fun m => m.groupId == some gid) :=
      List.mem_filter.2 ⟨hm, by simpa using hgm⟩
    exact clearedOf_foldl_clears _ _ _ ⟨m, hmem, rfl⟩

/-- Database used by the C10 witness: group 2 with a member, a message, and a
group-scoped meeting 9 carrying dependent rows. -/
def wGroupDB : DB :=
  { emptyDB with
      chatGroups := [{ id := 2, name := "h", createdById := "A", isPrivate := false,
                       memberCount := 1 }]
      chatGroupMembers := [{ id := 1, groupId := some 2, userId := "A", role := "admin" }]
      chatMessages := [{ id := 1, groupId := some 2, senderId := "A", content := "hi" }]
      meetingSuggestions := [{ id := 9, suggestedById := "A", groupId := some 2, title := "m9",
                               description := none, proposedDateTime := 0, location := none,
                               duration := 60, requiresAllAccept := false, status := "accepted",
                               isPrivate := false, backgroundImageUrl := none,
                               participants := [], createdAt := 0 }]
      meetingParticipants := [{ id := 1, meetingId := 9, userId := "A", addedAt := 0 }]
      meetingResponses := [{ id := 1, meetingId := 9, userId := "A", responseType := "accepted",
                             note := none, counterDateTime := none, counterLocation := none,
                             createdAt := 0 }]
      meetingTags := [{ id := 1, meetingId := 9, tagId := 1, addedByUserId := "A" }]
      nextMeetingId := 10
      nextParticipantId := 2
      nextResponseId := 2 }

/-- Witness for C10 at a concrete state: deleting group 2 clears meeting 9 and
all its dependent rows. -/
theorem deleteChatGroup_cascade_witness :
    (∀ mem ∈ (deleteChatGroup wGroupDB 2).chatGroupMembers, mem.groupId ≠ some 2) ∧
    (∀ msg ∈ (deleteChatGroup wGroupDB 2).chatMessages, msg.groupId ≠ some 2) ∧
    (∀ g ∈ (deleteChatGroup wGroupDB 2).chatGroups, g.id ≠ 2) ∧
    (∀ m ∈ wGroupDB.meetingSuggestions, m.groupId = some 2 →
      clearedOf (deleteChatGroup wGroupDB 2) m.id) :=
  deleteChatGroup_cascade wGroupDB 2

/-! ## C3: half-open overlap test -/

/-- C3: for a pair of events with `e1.id < e2.id`, the overlap test reports a
conflict iff `e1.startTime < e2.endTime` and `e2.startTime < e1.endTime`, with
strict inequalities; the spec-modelled Detect materializes exactly one conflict
row (with `conflictType = "overlap"`, `isResolved = false`) for a properly
overlapping pair and none otherwise; two events where one ends exactly when the
other starts are never a conflict. -/
theorem conflict_overlap_spec (e1 e2 : Event) (hid : e1.id < e2.id) :
    (hasConflicts [e1, e2] = true ↔
      (e1.startTime < e2.endTime ∧ e2.startTime < e1.endTime)) ∧
    ((detect [e1, e2]).length =
      if e1.startTime < e2.endTime ∧ e2.startTime < e1.endTime then 1 else 0) ∧
    (∀ c ∈ detect [e1, e2], c.conflictType = "overlap" ∧ c.isResolved = false) ∧
    (e1.endTime = e2.startTime → hasConflicts [e1, e2] = false) := by
  have hno : ¬ e2.id < e1.id := Nat.lt_asymm hid
  have hhc : hasConflicts [e1, e2] = overlaps e1 e2 := by
    simp [hasConflicts, hasConflictsPairs]
  have hov : overlaps e1 e2 = true ↔
      (e1.startTime < e2.endTime ∧ e2.startTime < e1.endTime) := by
    simp [overlaps]
  have hdet : detect [e1, e2] = if overlaps e1 e2 = true
      then [{ id := 0, event1Id := some e1.id, event2Id := some e2.id,
              conflictType := "overlap", isResolved := false }] else [] := by
    by_cases h : overlaps e1 e2 = true
    · simp [detect, h, hid, hno, Nat.lt_irrefl]
    · simp [detect, h, hid, hno, Nat.lt_irrefl]
  refine ⟨by rw [hhc]; exact hov, ?_, ?_, ?_⟩
  · rw [hdet]
    by_cases h : e1.startTime < e2.endTime ∧ e2.startTime < e1.endTime
    · rw [if_pos (hov.2 h), if_pos h]
      rfl
    · rw [if_neg (fun hh => h (hov.1 hh)), if_neg h]
      rfl
  · intro c hc
    rw [hdet] at hc
    split at hc
    · simp only [List.mem_singleton] at hc
      subst hc
      exact ⟨rfl, rfl⟩
    · cases hc
  · intro hb
    rw [hhc]
    simp [overlaps, hb]

/-- First event of the spec's overlap example: A at [600, 660) (10:00-11:00 in
minutes). -/
def wEvA : Event :=
  { id := 1, calendarId := some 1, title := "A", startTime := 600, endTime := 660,
    isAllDay := false }

/-- Second event of the spec's overlap example: B at [630, 690) (10:30-11:30). -/
def wEvB : Event :=
  { id := 2, calendarId := some 1, title := "B", startTime := 630, endTime := 690,
    isAllDay := false }

/-- Witness for C3 at the spec's concrete events: the overlapping pair is
reported, exactly one conflict row is materialized, unresolved. -/
theorem conflict_overlap_spec_witness :
    wEvA.id < wEvB.id ∧
    ((hasConflicts [wEvA, wEvB] = true ↔
        (wEvA.startTime < wEvB.endTime ∧ wEvB.startTime < wEvA.endTime)) ∧
      ((detect [wEvA, wEvB]).length =
        if wEvA.startTime < wEvB.endTime ∧ wEvB.startTime < wEvA.endTime then 1 else 0) ∧
      (∀ c ∈ detect [wEvA, wEvB], c.conflictType = "overlap" ∧ c.isResolved = false) ∧
      (wEvA.endTime = wEvB.startTime → hasConflicts [wEvA, wEvB] = false)) :=
  ⟨by decide, conflict_overlap_spec wEvA wEvB (by decide)⟩

/-! ## C1: the implemented aggregate counts every response row -/

/-- User B's first response: accepted at time 1. -/
def c1r1 : MeetingResponse :=
  { id := 1, meetingId := 10, userId := "B", responseType := "accepted",
    note := none, counterDateTime := none, counterLocation := none, createdAt := 1 }

/-- User B's later response: rejected at time 2. -/
def c1r2 : MeetingResponse :=
  { id := 2, meetingId := 10, userId := "B", responseType := "rejected",
    note := none, counterDateTime := none, counterLocation := none, createdAt := 2 }

/-- The response list for meeting 10, newest first (as the API returns it). -/
def c1cex : List MeetingResponse := [c1r2, c1r1]

/-- C1 counterexample: user B revised accepted → rejected; the implemented
counters report countAccepted = 1 and countRejected = 1 — B is counted twice,
once per response — whereas deriving from the latest response per distinct
user (the claim) gives countAccepted = 0, countRejected = 1 for the single
responder B. -/
theorem aggregate_latest_cex :
    acceptedCount c1cex = 1 ∧ rejectedCount c1cex = 1 ∧
    latestCountAccepted c1cex = 0 ∧ latestCountRejected c1cex = 1 ∧
    distinctResponders c1cex = ["B"] := by decide

theorem counts_partition (responses : List MeetingResponse)
    (hall : ∀ x ∈ responses, x.responseType = "accepted" ∨ x.responseType = "rejected" ∨
      x.responseType = "counter") :
    acceptedCount responses + rejectedCount responses + counterCount responses
      = responses.length := by
  induction responses with
  | nil => rfl
  | cons r rs ih =>
    have hr := hall r (List.mem_cons_self r rs)
    have hrs := ih (fun x hx => hall x (List.mem_cons_of_mem r hx))
    unfold acceptedCount rejectedCount counterCount at hrs ⊢
    rw [List.filter_cons, List.filter_cons, List.filter_cons]
    rcases hr with h | h | h <;> rw [h] <;> simp <;> omega

/-- C1 amended: the implemented `Aggregate` derives the counters from every
submitted response row, not from the latest response per user — each response
increments the counter of its own `responseType` (so a user who responded n
times contributes n counts), and for well-typed logs the three counters
partition the response list; only submitted responses are counted. -/
theorem aggregate_counts_per_row (r : MeetingResponse) (responses : List MeetingResponse)
    (hall : ∀ x ∈ r :: responses, x.responseType = "accepted" ∨
      x.responseType = "rejected" ∨ x.responseType = "counter") :
    acceptedCount (r :: responses) =
      (if r.responseType = "accepted" then 1 else 0) + acceptedCount responses ∧
    rejectedCount (r :: responses) =
      (if r.responseType = "rejected" then 1 else 0) + rejectedCount responses ∧
    counterCount (r :: responses) =
      (if r.responseType = "counter" then 1 else 0) + counterCount responses ∧
    acceptedCount (r :: responses) + rejectedCount (r :: responses) +
        counterCount (r :: responses) = (r :: responses).length ∧
    acceptedCount ([] : List MeetingResponse) = 0 := by
  refine ⟨?_, ?_, ?_, counts_partition _ hall, rfl⟩
  · unfold acceptedCount
    rw [List.filter_cons]
    by_cases h : r.responseType = "accepted"
    · simp [h]
      omega
    · simp [h]
  · unfold rejectedCount
    rw [List.filter_cons]
    by_cases h : r.responseType = "rejected"
    · simp [h]
      omega
    · simp [h]
  · unfold counterCount
    rw [List.filter_cons]
    by_cases h : r.responseType = "counter"
    · simp [h]
      omega
    · simp [h]

/-- User C's counter-proposal, used by the amended-C1 witness. -/
def c1r3 : MeetingResponse :=
  { id := 3, meetingId := 10, userId := "C", responseType := "counter",
    note := none, counterDateTime := some 3, counterLocation := none, createdAt := 3 }

/-- Tail of the log used by the amended-C1 witness. -/
def c1wtail : List MeetingResponse := [c1r1, c1r3]

/-- Witness for the amended C1 at a concrete log: B's two responses plus C's
counter-proposal. -/
theorem aggregate_counts_per_row_witness :
    (∀ x ∈ c1r2 :: c1wtail, x.responseType = "accepted" ∨
      x.responseType = "rejected" ∨ x.responseType = "counter") ∧
    (acceptedCount (c1r2 :: c1wtail) =
        (if c1r2.responseType = "accepted" then 1 else 0) + acceptedCount c1wtail ∧
      rejectedCount (c1r2 :: c1wtail) =
        (if c1r2.responseType = "rejected" then 1 else 0) + rejectedCount c1wtail ∧
      counterCount (c1r2 :: c1wtail) =
        (if c1r2.responseType = "counter" then 1 else 0) + counterCount c1wtail ∧
      acceptedCount (c1r2 :: c1wtail) + rejectedCount (c1r2 :: c1wtail) +
          counterCount (c1r2 :: c1wtail) = (c1r2 :: c1wtail).length ∧
      acceptedCount ([] : List MeetingResponse) = 0) :=
  ⟨by decide, aggregate_counts_per_row c1r2 c1wtail (by decide)⟩

/-! ## C5: the title reaches the store untruncated -/

/-- Create request with a 17-character title. -/
def c5Req : CreateMeetingRequest :=
  { title := "ABCDEFGHIJKLMNOPQ"
    description := none
    proposedDateTime := 0
    location := none
    duration := none
    requiresAllAccept := none
    chatGroupId := none
    participants := []
    image := false }

/-- C5 (evaluating the code at the failing input): the create route passes
`meetingData.title` through unchanged, so a 17-character title is persisted
with all 17 characters — the schema's `text("title", { length: 16 })` option is
ignored for a pg `text` column and only the client input caps at 16, so no
bound is enforced at the creation boundary before persistence. -/
theorem title_not_truncated :
    (postMeetings emptyDB 0 "A" c5Req none).1.meetingSuggestions.map MeetingSuggestion.title
      = ["ABCDEFGHIJKLMNOPQ"] ∧ ("ABCDEFGHIJKLMNOPQ" : String).length = 17 := by
  constructor
  · rfl
  · rfl

/-! ## C6: participant-row uniqueness -/

/-- Create request whose participant list duplicates user B. -/
def c6Req : CreateMeetingRequest :=
  { title := "t"
    description := none
    proposedDateTime := 0
    location := none
    duration := none
    requiresAllAccept := none
    chatGroupId := none
    participants := ["B", "B"]
    image := false }

/-- C6 counterexample: Create with participantIds = [B, B] (author A, empty
store) leaves two participant rows for B on the new meeting 1 — the handler's
loop does a raw insert per occurrence, with no deduplication and no unique
constraint on `(meetingId, userId)` — so Create does not insert each distinct
supplied id exactly once. -/
theorem create_duplicate_participants :
    ((postMeetings emptyDB 0 "A" c6Req none).1.meetingParticipants.filter
      (fun p => p.meetingId == 1 && p.userId == "B")).length = 2 := by decide

/-- Number of participant rows for `(meetingId, userId)`. -/
def countPart (db : DB) (mid : Nat) (v : String) : Nat :=
  (db.meetingParticipants.filter (fun p => p.meetingId == mid && p.userId == v)).length

theorem addMeetingParticipant_countPart (db : DB) (now : Int) (mid' : Nat) (u' : String)
    (mid : Nat) (v : String) :
    countPart (addMeetingParticipant db now mid' u') mid v =
      countPart db mid v + (if mid' = mid ∧ u' = v then 1 else 0) := by
  unfold countPart addMeetingParticipant
  rw [List.filter_append, List.length_append]
  congr 1
  by_cases h1 : mid' = mid
  · by_cases h2 : u' = v
    · simp [h1, h2]
    · simp [h1, h2]
  · simp [h1]

theorem countPart_zero_of_fresh (db : DB) (mid : Nat) (v : String)
    (h : ∀ p ∈ db.meetingParticipants, p.meetingId ≠ mid) :
    countPart db mid v = 0 := by
  unfold countPart
  rw [List.length_eq_zero, List.filter_eq_nil_iff]
  intro p hp
  simp only [Bool.and_eq_true, beq_iff_eq, not_and]
  intro hmid
  exact absurd hmid (h p hp)

theorem foldl_addPart_count (ps : List String) :
    ∀ (s : DB) (now : Int) (mid : Nat) (author v : String), v ≠ author →
      countPart (ps.foldl (fun s pid =>
          if pid == author then s else addMeetingParticipant s now mid pid) s) mid v
        = countPart s mid v + ps.count v := by
  induction ps with
  | nil =>
    intro s now mid author v hv
    simp
  | cons p ps ih =>
    intro s now mid author v hv
    rw [List.foldl_cons]
    by_cases hpa : (p == author) = true
    · rw [if_pos hpa, ih s now mid author v hv]
      have hpv : ¬ p = v := by
        have hpeq : p = author := beq_iff_eq.1 hpa
        subst hpeq
        exact fun h => hv h.symm
      rw [List.count_cons]
      simp [hpv]
    · rw [if_neg hpa, ih _ now mid author v hv, addMeetingParticipant_countPart,
        List.count_cons]
      by_cases hpv : p = v
      · simp [hpv]
        omega
      · simp [hpv]

theorem foldl_addPart_count_author (ps : List String) :
    ∀ (s : DB) (now : Int) (mid : Nat) (author : String),
      countPart (ps.foldl (fun s pid =>
          if pid == author then s else addMeetingParticipant s now mid pid) s) mid author
        = countPart s mid author := by
  induction ps with
  | nil =>
    intro s now mid author
    rfl
  | cons p ps ih =>
    intro s now mid author
    rw [List.foldl_cons]
    by_cases hpa : (p == author) = true
    · rw [if_pos hpa]
      exact ih _ _ _ _
    · rw [if_neg hpa, ih _ _ _ _, addMeetingParticipant_countPart]
      have hpa' : ¬ p = author := fun h => hpa (beq_iff_eq.2 h)
      simp [hpa']

theorem createMeetingSuggestion_snd_id (db : DB) (now : Int) (s : InsertMeetingSuggestion) :
    (createMeetingSuggestion db now s).2.id = db.nextMeetingId := rfl

theorem postMeetings_participant_counts (db : DB) (now : Int) (u : String)
    (req : CreateMeetingRequest)
    (hids : (db.meetingSuggestions.map MeetingSuggestion.id).Nodup)
    (hq : authoredCount db u < 4) (himg : req.image = false)
    (hfresh : ∀ p ∈ db.meetingParticipants, p.meetingId ≠ db.nextMeetingId) :
    (∀ v, v ≠ u → countPart (postMeetings db now u req none).1 db.nextMeetingId v
        = req.participants.count v) ∧
    countPart (postMeetings db now u req none).1 db.nextMeetingId u = 1 := by
  have hc := @userCreated_length db u hids
  have hcond : ¬ 4 ≤ ((getAllMeetingsForUser db u).filter
      (fun m => m.suggestedById == u)).length := by
    rw [hc]
    omega
  unfold postMeetings
  rw [if_neg hcond, himg]
  simp only [Bool.false_eq_true, if_false]
  unfold finishCreate
  dsimp only
  simp only [createMeetingSuggestion_snd_id]
  have hzero : ∀ w, countPart (addMeetingParticipant
      (createMeetingSuggestion db now
        { title := req.title, description := req.description,
          proposedDateTime := req.proposedDateTime, location := req.location,
          duration := jsOrNat req.duration 60,
          requiresAllAccept := req.requiresAllAccept.getD false,
          suggestedById := u, groupId := req.chatGroupId, status := "accepted" }).1
      now db.nextMeetingId u) db.nextMeetingId w
      = (if u = w then 1 else 0) := by
    intro w
    rw [addMeetingParticipant_countPart]
    have hbase : countPart (createMeetingSuggestion db now
        { title := req.title, description := req.description,
          proposedDateTime := req.proposedDateTime, location := req.location,
          duration := jsOrNat req.duration 60,
          requiresAllAccept := req.requiresAllAccept.getD false,
          suggestedById := u, groupId := req.chatGroupId, status := "accepted" }).1
        db.nextMeetingId w = 0 :=
      countPart_zero_of_fresh _ _ _ hfresh
    rw [hbase]
    by_cases hw : u = w
    · simp [hw]
    · simp [hw]
  constructor
  · intro v hv
    rw [foldl_addPart_count req.participants _ now db.nextMeetingId u v hv, hzero v]
    have : ¬ u = v := fun h => hv h.symm
    simp [this]
  · rw [foldl_addPart_count_author req.participants _ now db.nextMeetingId u, hzero u]
    simp

/-- C6 amended: `joinMeeting` is an idempotent insert-if-absent — a second Join
for the same `(meetingId, userId)` is a no-op and exactly one participant row
results — but Create does not deduplicate: on the success path it inserts the
author exactly once and then one participant row per occurrence of each
supplied participant id other than the author, so a duplicated id in
`participantIds` yields duplicate rows. -/
theorem join_idempotent_create_per_occurrence
    (db dbc : DB) (now now2 nowc : Int) (mid : Nat) (u uc v : String)
    (req : CreateMeetingRequest)
    (hnone : countPart db mid u = 0)
    (hids : (dbc.meetingSuggestions.map MeetingSuggestion.id).Nodup)
    (hq : authoredCount dbc uc < 4)
    (hfresh : ∀ p ∈ dbc.meetingParticipants, p.meetingId ≠ dbc.nextMeetingId)
    (himg : req.image = false)
    (hv : v ≠ uc) :
    joinMeeting (joinMeeting db now mid u) now2 mid u = joinMeeting db now mid u ∧
    countPart (joinMeeting db now mid u) mid u = 1 ∧
    countPart (postMeetings dbc nowc uc req none).1 dbc.nextMeetingId v
      = req.participants.count v ∧
    countPart (postMeetings dbc nowc uc req none).1 dbc.nextMeetingId uc = 1 := by
  have hj1 : joinMeeting db now mid u = addMeetingParticipant db now mid u := by
    unfold joinMeeting
    rw [if_pos]
    exact hnone
  have hcount1 : countPart (joinMeeting db now mid u) mid u = 1 := by
    rw [hj1, addMeetingParticipant_countPart, hnone]
    simp
  have hcreate := postMeetings_participant_counts dbc nowc uc req hids hq himg hfresh
  refine ⟨?_, hcount1, hcreate.1 v hv, hcreate.2⟩
  have hne : ¬ (((joinMeeting db now mid u).meetingParticipants.filter
      (fun p => p.meetingId == mid && p.userId == u)).length = 0) := by
    have h1 : countPart (joinMeeting db now mid u) mid u = 1 := hcount1
    unfold countPart at h1
    omega
  conv_lhs => rw [joinMeeting]
  rw [if_neg hne]

/-- Create request used by the amended-C6 witness: participant list [B, B, C]. -/
def c6wReq : CreateMeetingRequest :=
  { title := "t"
    description := none
    proposedDateTime := 0
    location := none
    duration := none
    requiresAllAccept := none
    chatGroupId := none
    participants := ["B", "B", "C"]
    image := false }

/-- Witness for the amended C6 at concrete states: a double Join on an empty
store, and a Create by A with participant list [B, B, C]. -/
theorem join_idempotent_create_per_occurrence_witness :
    countPart emptyDB 3 "D" = 0 ∧
    (emptyDB.meetingSuggestions.map MeetingSuggestion.id).Nodup ∧
    authoredCount emptyDB "A" < 4 ∧
    (∀ p ∈ emptyDB.meetingParticipants, p.meetingId ≠ emptyDB.nextMeetingId) ∧
    ("B" : String) ≠ "A" ∧
    (joinMeeting (joinMeeting emptyDB 0 3 "D") 1 3 "D" = joinMeeting emptyDB 0 3 "D" ∧
      countPart (joinMeeting emptyDB 0 3 "D") 3 "D" = 1 ∧
      countPart (postMeetings emptyDB 0 "A" c6wReq none).1 emptyDB.nextMeetingId "B"
        = c6wReq.participants.count "B" ∧
      countPart (postMeetings emptyDB 0 "A" c6wReq none).1 emptyDB.nextMeetingId "A" = 1) :=
  ⟨by decide, by decide, by decide, by decide, by decide,
    join_idempotent_create_per_occurrence emptyDB emptyDB 0 1 0 3 "D" "A" "B" c6wReq
      (by decide) (by decide) (by decide) (by decide) (by decide) (by decide)⟩

end DndMeet
